/-
Verification of the regularized-vote core of CC-parcellation-from-tractography
(src/regularized_vote.py), as a shallow embedding in Lean 4.

Machine integers of the source are modelled as ℤ (labels, mask values) and
track densities as ℚ (the source multiplies them by 0.5).  Fallible NumPy
operations (out-of-bounds indexing, argmax/median of an empty array) are
modelled with `Except`.
-/
import Mathlib

deriving instance DecidableEq for Except

namespace RegVote

/-- Failure conditions of the Python script: `argparse` usage errors,
NumPy `IndexError`, `ValueError` (e.g. `int(nan)` after a median of an
empty array, `argmax` of an empty array), and shape mismatches. -/
inductive Err where
  | usageError
  | indexError
  | valueError
  | shapeError
  deriving DecidableEq, Repr

/-- The two output files written by `regularized_vote`
(`…_segmented_cc_2dwi_mean.nii.gz` and `…_segmented_cc_bis_2dwi_mean.nii.gz`). -/
inductive FileTag where
  | resultFile
  | extendedFile
  deriving DecidableEq, Repr

/-- One single-channel input volume (a track-density image as read from disk). -/
structure VolQ where
  X : ℕ
  Y : ℕ
  Z : ℕ
  data : ℕ → ℕ → ℕ → ℚ

/-- The mask volume `arr_cc` (after dropping the trailing channel axis). -/
structure MaskArr where
  X : ℕ
  Y : ℕ
  Z : ℕ
  data : ℕ → ℕ → ℕ → ℤ

/-- The stacked 4-D array `tdi_array` of shape `(X, Y, Z, K)`: at each voxel a
length-`K` vector of channel values. -/
structure TdiArray where
  X : ℕ
  Y : ℕ
  Z : ℕ
  K : ℕ
  data : ℕ → ℕ → ℕ → List ℚ

/-- Bounds-checked element access, `none` modelling a NumPy `IndexError`. -/
def TdiArray.get? (a : TdiArray) (i j k : ℕ) : Option (List ℚ) :=
  if i < a.X ∧ j < a.Y ∧ k < a.Z then some (a.data i j k) else none

/-- NumPy `.max()` of a per-voxel channel vector (vectors are non-empty in
every actual run, `K ≥ 2`; on `[]` we return `0`, a value only reachable from
ill-formed arrays). -/
def vecMax : List ℚ → ℚ
  | [] => 0
  | [v] => v
  | v :: w :: rest => max v (vecMax (w :: rest))

/-- NumPy `argmax`: index of the first occurrence of the maximum. -/
def argmaxIdx : List ℚ → ℕ
  | [] => 0
  | [_] => 0
  | v :: w :: rest =>
    if vecMax (w :: rest) ≤ v then 0 else argmaxIdx (w :: rest) + 1

/-- Elementwise vector sum (`neighbour_contrib += tdi_array[i, j, k]`). -/
def vadd (u v : List ℚ) : List ℚ := List.zipWith (· + ·) u v

/-- Scalar multiple of a vector. -/
def vsmul (c : ℚ) (v : List ℚ) : List ℚ := v.map (fun q => c * q)

/-- Module constant `CONTRIB_CENTRAL_VOXEL = 0.5`. -/
def CONTRIB_CENTRAL_VOXEL : ℚ := 1 / 2

/-- Module constant `CONTRIB_NEIGHBOURS = 0.5`. -/
def CONTRIB_NEIGHBOURS : ℚ := 1 / 2

/-- Module constant `NO_VOTE = 2`. -/
def NO_VOTE : ℤ := 2

/-- Module constant `EXTENSION = 3`. -/
def EXTENSION : ℕ := 3

/-- The index range `range(max(c-1, 0), min(c+2, X+1))` used by
`regularize_tdis_at` on every axis, with `X = tdi_array.shape[0]` — note the
source uses `shape[0] + 1` as upper clamp on all three axes. -/
def buggyRange (c X : ℕ) : List ℕ :=
  List.range' (c - 1) (min (c + 2) (X + 1) - (c - 1))

/-- The neighbourhood coordinates enumerated by the triple loop of
`regularize_tdis_at`, in loop order (`i` outermost, `k` innermost). -/
def nbhd (a : TdiArray) (x y z : ℕ) : List (ℕ × ℕ × ℕ) :=
  (buggyRange x a.X).flatMap (fun i =>
    (buggyRange y a.X).flatMap (fun j =>
      (buggyRange z a.X).map (fun k => (i, j, k))))

/-- Body of the neighbour loop of `regularize_tdis_at`: accumulate the count
and sum of contributing neighbours; any out-of-bounds access raises. -/
def nbLoop (a : TdiArray) (x y z : ℕ) :
    List (ℕ × ℕ × ℕ) → ℕ × List ℚ → Except Err (ℕ × List ℚ)
  | [], acc => .ok acc
  | c :: cs, acc =>
    match a.get? c.1 c.2.1 c.2.2 with
    | none => .error .indexError
    | some v =>
      if vecMax v ≠ 0 ∧ (c.1, c.2.1, c.2.2) ≠ (x, y, z) then
        nbLoop a x y z cs (acc.1 + 1, vadd acc.2 v)
      else
        nbLoop a x y z cs acc

/-- `regularize_tdis_at(tdi_array, x, y, z)`: smoothed vote vector of a voxel. -/
def regularize_tdis_at (a : TdiArray) (x y z : ℕ) : Except Err (List ℚ) :=
  match nbLoop a x y z (nbhd a x y z) (0, List.replicate a.K 0) with
  | .error e => .error e
  | .ok (n, contrib) =>
    match a.get? x y z with
    | none => .error .indexError
    | some center =>
      if n ≠ 0 then
        .ok (vadd (vsmul CONTRIB_CENTRAL_VOXEL center)
                  (vsmul (CONTRIB_NEIGHBOURS / (n : ℚ)) contrib))
      else
        .ok center

/-- Follows the spec's words (§4.2, step 1): the 26-connected neighbourhood of
`(x, y, z)`, each axis clamped to its own valid grid bounds, the centre
excluded.  Used only to compare the source's enumeration with the spec. -/
def specNbhd (a : TdiArray) (x y z : ℕ) : List (ℕ × ℕ × ℕ) :=
  ((List.range' (x - 1) (min (x + 2) a.X - (x - 1))).flatMap (fun i =>
    (List.range' (y - 1) (min (y + 2) a.Y - (y - 1))).flatMap (fun j =>
      (List.range' (z - 1) (min (z + 2) a.Z - (z - 1))).map
        (fun k => (i, j, k))))).filter (fun c => c ≠ (x, y, z))

/-- Follows the spec's words (§4.2, steps 2–5): sum the vote vectors of the
in-bounds 26-neighbours whose maximum component is non-zero; with `n > 0`
contributing neighbours return `center × 0.5 + sum × (0.5 / n)`, otherwise the
centre vector unchanged. -/
def regularizeSpec (a : TdiArray) (x y z : ℕ) : List ℚ :=
  let contributors :=
    (specNbhd a x y z).filter (fun c => vecMax (a.data c.1 c.2.1 c.2.2) ≠ 0)
  let n := contributors.length
  let contrib := contributors.foldl
    (fun acc c => vadd acc (a.data c.1 c.2.1 c.2.2)) (List.replicate a.K 0)
  if n ≠ 0 then
    vadd (vsmul CONTRIB_CENTRAL_VOXEL (a.data x y z))
         (vsmul (CONTRIB_NEIGHBOURS / (n : ℚ)) contrib)
  else
    a.data x y z

/-- Indices of the non-zero mask voxels, `arr_cc.nonzero()`, in NumPy's
C (lexicographic) order. -/
def nonzeroCoords (m : MaskArr) : List (ℕ × ℕ × ℕ) :=
  (List.range m.X).flatMap (fun x =>
    (List.range m.Y).flatMap (fun y =>
      (List.range m.Z).filterMap (fun z =>
        if m.data x y z ≠ 0 then some (x, y, z) else none)))

/-- Pointwise update of a 3-D label array. -/
def update3 (f : ℕ → ℕ → ℕ → ℤ) (x y z : ℕ) (v : ℤ) : ℕ → ℕ → ℕ → ℤ :=
  fun a b c => if a = x ∧ b = y ∧ c = z then v else f a b c

/-- Body of one iteration of the voting loop: regularize, take `argmax`, and
map to `NO_VOTE` or `output_labels[winner_index]`.  `argmax` of an empty
vector and an out-of-range label lookup raise, as in Python. -/
def voxelLabel (a : TdiArray) (labels : List ℤ) (x y z : ℕ) : Except Err ℤ :=
  match regularize_tdis_at a x y z with
  | .error e => .error e
  | .ok v =>
    if v.isEmpty then .error .valueError
    else
      let w := argmaxIdx v
      if v.getD w 0 = 0 then .ok NO_VOTE
      else
        match labels.get? w with
        | some lab => .ok lab
        | none => .error .indexError

/-- The loop `for x, y, z in zip(tab_x, tab_y, tab_z)` filling `result`. -/
def voteLoop (a : TdiArray) (labels : List ℤ) :
    List (ℕ × ℕ × ℕ) → (ℕ → ℕ → ℕ → ℤ) → Except Err (ℕ → ℕ → ℕ → ℤ)
  | [], r => .ok r
  | c :: cs, r =>
    match voxelLabel a labels c.1 c.2.1 c.2.2 with
    | .error e => .error e
    | .ok lab => voteLoop a labels cs (update3 r c.1 c.2.1 c.2.2 lab)

/-- Insertion into a sorted list (ascending). -/
def insertLe (x : ℕ) : List ℕ → List ℕ
  | [] => [x]
  | y :: ys => if x ≤ y then x :: y :: ys else y :: insertLe x ys

/-- Insertion sort, used to express the sorted order underlying
`numpy.median`. -/
def sortLe : List ℕ → List ℕ
  | [] => []
  | x :: xs => insertLe x (sortLe xs)

/-- `numpy.median` of an integer array as an exact rational: middle element of
the sorted data for odd length, mean of the two middle elements for even
length.  On an empty array `numpy.median` yields `nan` and the subsequent
`int(...)` in the source raises `ValueError`; that failure is modelled here. -/
def npMedian (l : List ℕ) : Except Err ℚ :=
  match l with
  | [] => .error .valueError
  | _ :: _ =>
    let s := sortLe l
    let n := l.length
    if n % 2 = 1 then .ok ((s.getD (n / 2) 0 : ℕ) : ℚ)
    else .ok (((s.getD (n / 2 - 1) 0 : ℕ) + (s.getD (n / 2) 0 : ℕ) : ℚ) / 2)

/-- Python `int(...)` on a rational: truncation toward zero (`Int.tdiv` is
T-division). -/
def intTrunc (q : ℚ) : ℤ := q.num.tdiv (q.den : ℤ)

/-- `central_x = int(numpy.median(tab_x))`. -/
def centralX (coords : List (ℕ × ℕ × ℕ)) : Except Err ℤ :=
  match npMedian (coords.map (fun c => c.1)) with
  | .error e => .error e
  | .ok m => .ok (intTrunc m)

/-- Normalization of one Python slice endpoint against an axis of length
`len`: negative values wrap by `+ len`, then both ends are clamped to
`[0, len]`. -/
def sliceNorm (v : ℤ) (len : ℕ) : ℕ :=
  if v < 0 then (max (v + len) 0).toNat else min v.toNat len

/-- The list of indices selected by the Python slice `start:stop` on an axis
of length `len`. -/
def sliceIndices (start stop : ℤ) (len : ℕ) : List ℕ :=
  let a := sliceNorm start len
  let b := sliceNorm stop len
  List.range' a (b - a)

/-- One slice's worth of the fancy assignment
`extended_result[s, tab_y, tab_z] = result[tab_x, tab_y, tab_z]`:
for each mask voxel `c` in order, write `vals c` at `(s, c.y, c.z)`. -/
def innerAssign (s : ℕ) (vals : ℕ × ℕ × ℕ → ℤ) :
    List (ℕ × ℕ × ℕ) → (ℕ → ℕ → ℕ → ℤ) → ℕ → ℕ → ℕ → ℤ
  | [], e => e
  | c :: cs, e => innerAssign s vals cs (update3 e s c.2.1 c.2.2 (vals c))

/-- The full slab assignment, iterating the slice indices in order. -/
def slabAssign (vals : ℕ × ℕ × ℕ → ℤ) (coords : List (ℕ × ℕ × ℕ)) :
    List ℕ → (ℕ → ℕ → ℕ → ℤ) → ℕ → ℕ → ℕ → ℤ
  | [], e => e
  | s :: ss, e => slabAssign vals coords ss (innerAssign s vals coords e)

/-- Outcome of one invocation of `regularized_vote`: which output files were
written before any failure, the computed label arrays (when they exist), and
the failure, if any. -/
structure RunOut where
  writes : List FileTag
  result : Option (ℕ → ℕ → ℕ → ℤ)
  extended : Option (ℕ → ℕ → ℕ → ℤ)
  err : Option Err

/-- `numpy.concatenate([...], axis=3)` on the track-density volumes: stacks
the single-channel volumes into a `K`-channel array; raises on an empty list
or mismatched spatial shapes. -/
def stackTdis : List VolQ → Except Err TdiArray
  | [] => .error .valueError
  | v :: rest =>
    if _h : ∀ w ∈ rest, w.X = v.X ∧ w.Y = v.Y ∧ w.Z = v.Z then
      .ok ⟨v.X, v.Y, v.Z, (v :: rest).length,
           fun x y z => (v :: rest).map (fun w => w.data x y z)⟩
    else .error .shapeError

/-- `tdi_array[arr_cc == 0] = 0`: zero the full channel vector outside the
mask. -/
def maskTdi (mask : MaskArr) (t : TdiArray) : TdiArray :=
  ⟨t.X, t.Y, t.Z, t.K,
   fun x y z => if mask.data x y z = 0 then List.replicate t.K 0
                else t.data x y z⟩

/-- `regularized_vote(result_dir, subject, tdi_filenames, output_labels)`, on
already-loaded volumes: stack the track-density images, zero them outside the
mask, vote at every mask voxel, write the result volume, then build and write
the slab-extended volume.  The first output file is written before the median
of the mask's x coordinates is taken. -/
def regularized_vote (mask : MaskArr) (tdiVols : List VolQ)
    (output_labels : List ℤ) : RunOut :=
  match stackTdis tdiVols with
  | .error e => ⟨[], none, none, some e⟩
  | .ok t0 =>
    if t0.X = mask.X ∧ t0.Y = mask.Y ∧ t0.Z = mask.Z then
      let a := maskTdi mask t0
      let coords := nonzeroCoords mask
      match voteLoop a output_labels coords (fun _ _ _ => 0) with
      | .error e => ⟨[], none, none, some e⟩
      | .ok res =>
        match centralX coords with
        | .error e => ⟨[.resultFile], some res, none, some e⟩
        | .ok cx =>
          let slab := sliceIndices (cx - (EXTENSION : ℤ))
                                   (cx + (EXTENSION : ℤ) + 1) mask.X
          let ext := slabAssign (fun d => res d.1 d.2.1 d.2.2) coords slab res
          ⟨[.resultFile, .extendedFile], some res, some ext, none⟩
    else ⟨[], none, none, some .shapeError⟩

/-- Value of the result volume at a voxel, when the run produced one. -/
def resultAt (o : RunOut) (x y z : ℕ) : Option ℤ :=
  o.result.map (fun f => f x y z)

/-- Value of the extended volume at a voxel, when the run produced one. -/
def extendedAt (o : RunOut) (x y z : ℕ) : Option ℤ :=
  o.extended.map (fun f => f x y z)

/-- The command line after tokenization by `argparse`: the two positional
strings, the list of `tdi` paths, and the two options (`--no-vote-label`
defaults to `2`). -/
structure CmdLine where
  result_dir : String
  subject : String
  tdi : List String
  output_labels : Option (List ℤ)
  no_vote_label : ℤ := 2

/-- The namespace returned by `parse_command_line`. -/
structure ParsedArgs where
  result_dir : String
  subject : String
  tdi : List String
  output_labels : List ℤ
  no_vote_label : ℤ
  deriving DecidableEq

/-- `parse_command_line`: reject fewer than two `tdi` paths, then default
`output_labels` to `1..len(tdi)` or reject a length mismatch. -/
def parse_command_line (c : CmdLine) : Except Err ParsedArgs :=
  if c.tdi.length < 2 then .error .usageError
  else
    match c.output_labels with
    | none =>
      .ok ⟨c.result_dir, c.subject, c.tdi,
           (List.range c.tdi.length).map (fun i : ℕ => (i : ℤ) + 1),
           c.no_vote_label⟩
    | some ls =>
      if ls.length ≠ c.tdi.length then .error .usageError
      else .ok ⟨c.result_dir, c.subject, c.tdi, ls, c.no_vote_label⟩

/-- The volumes on disk: the mask resolved from the fixed naming convention,
and a track-density volume for each path. -/
structure Env where
  mask : MaskArr
  tdiOf : String → VolQ

/-- `main`: parse the command line (usage errors exit with status 2 and write
nothing), then run `regularized_vote(args.result_dir, args.subject, args.tdi,
args.output_labels)` — note the source passes only these four arguments, so
`args.no_vote_label` never reaches the vote.  An uncaught exception exits
non-zero; success exits 0. -/
def main (env : Env) (c : CmdLine) : RunOut × ℤ :=
  match parse_command_line c with
  | .error _ => (⟨[], none, none, some .usageError⟩, 2)
  | .ok a =>
    let out := regularized_vote env.mask (a.tdi.map env.tdiOf) a.output_labels
    (out, if out.err.isSome then 1 else 0)

/-- An all-zero track-density volume on a 3×3×3 grid. -/
def volZ3 : VolQ := ⟨3, 3, 3, fun _ _ _ => 0⟩

/-- A 3×3×3 mask active only at the maximal-corner voxel `(2,2,2)`. -/
def maskCorner : MaskArr :=
  ⟨3, 3, 3, fun x y z => if x = 2 ∧ y = 2 ∧ z = 2 then 1 else 0⟩

/-- The stacked all-zero two-channel field on the 3×3×3 grid. -/
def tdiZ3 : TdiArray := ⟨3, 3, 3, 2, fun _ _ _ => [0, 0]⟩

/-- An all-zero track-density volume on a 2×2×2 grid. -/
def volZ2 : VolQ := ⟨2, 2, 2, fun _ _ _ => 0⟩

/-- A 2×2×2 mask active only at the origin voxel. -/
def maskOrigin : MaskArr :=
  ⟨2, 2, 2, fun x y z => if x = 0 ∧ y = 0 ∧ z = 0 then 1 else 0⟩

/-- The disk contents for the small all-zero runs. -/
def envZ2 : Env := ⟨maskOrigin, fun _ => volZ2⟩

/-- A command line with two track-density paths, default output labels, and a
non-default `--no-vote-label 9`. -/
def cmdNoVote9 : CmdLine := ⟨"d", "s", ["a", "b"], none, 9⟩

/-- A command line supplying only one track-density path. -/
def cmdOneTdi : CmdLine := ⟨"d", "s", ["a"], none, 2⟩

/-- An all-zero track-density volume on an 8×2×2 grid. -/
def volZ8 : VolQ := ⟨8, 2, 2, fun _ _ _ => 0⟩

/-- An 8×2×2 mask with exactly two active voxels, `(3,0,0)` and `(4,0,0)`
(its x median is `3.5`). -/
def maskTwo : MaskArr :=
  ⟨8, 2, 2, fun x y z => if (x = 3 ∨ x = 4) ∧ y = 0 ∧ z = 0 then 1 else 0⟩

/-- The run on `maskTwo` with two all-zero channels and default labels. -/
def runTwo : RunOut := regularized_vote maskTwo [volZ8, volZ8] [1, 2]

/-- A 2×5×2 two-channel field, zero except for the vote vector `[0, 1]` at
`(1,4,1)`. -/
def tdiTall : TdiArray :=
  ⟨2, 5, 2, 2, fun x y z => if x = 1 ∧ y = 4 ∧ z = 1 then [0, 1] else [0, 0]⟩

/-- A 2×2×2 three-channel field whose only votes are `[5, 3, 0]` at the
origin. -/
def tdiFive : TdiArray :=
  ⟨2, 2, 2, 3, fun x y z => if x = 0 ∧ y = 0 ∧ z = 0 then [5, 3, 0]
                            else [0, 0, 0]⟩

/-- A 2×2×2 mask with no active voxel. -/
def maskNone : MaskArr := ⟨2, 2, 2, fun _ _ _ => 0⟩

/-- The stacked field produced by `stackTdis [volZ2, volZ2]`, written out. -/
def tdiStackZ2 : TdiArray :=
  ⟨volZ2.X, volZ2.Y, volZ2.Z, 2,
   fun x y z => [volZ2.data x y z, volZ2.data x y z]⟩

/-- A 2×2×2 volume with density `5` at the origin and `0` elsewhere. -/
def volFive : VolQ :=
  ⟨2, 2, 2, fun x y z => if x = 0 ∧ y = 0 ∧ z = 0 then 5 else 0⟩

/-- A 2×2×2 volume with density `3` at the origin and `0` elsewhere. -/
def volThree : VolQ :=
  ⟨2, 2, 2, fun x y z => if x = 0 ∧ y = 0 ∧ z = 0 then 3 else 0⟩

/-- The stacked field produced by `stackTdis [volFive, volThree, volZ2]`,
written out: its vote vector at the origin is `[5, 3, 0]`. -/
def tdiStack530 : TdiArray :=
  ⟨volFive.X, volFive.Y, volFive.Z, 3,
   fun x y z => [volFive.data x y z, volThree.data x y z, volZ2.data x y z]⟩

/-- The parsed form of `cmdNoVote9` (labels defaulted to `1..2`). -/
def paNine : ParsedArgs := ⟨"d", "s", ["a", "b"], [1, 2], 9⟩

/-- The run on the empty mask with two all-zero channels. -/
def runEmpty : RunOut := regularized_vote maskNone [volZ2, volZ2] [1, 2]

theorem mem_nonzeroCoords (m : MaskArr) (x y z : ℕ) :
    (x, y, z) ∈ nonzeroCoords m ↔
      x < m.X ∧ y < m.Y ∧ z < m.Z ∧ m.data x y z ≠ 0 := by
  simp only [nonzeroCoords, List.mem_flatMap, List.mem_filterMap,
    List.mem_range]
  constructor
  · rintro ⟨a, ha, b, hb, c, hc, h⟩
    by_cases hd : m.data a b c ≠ 0
    · rw [if_pos hd] at h
      injection h with h
      simp only [Prod.mk.injEq] at h
      obtain ⟨rfl, rfl, rfl⟩ := h
      exact ⟨ha, hb, hc, hd⟩
    · rw [if_neg hd] at h; cases h
  · rintro ⟨hx, hy, hz, hd⟩
    exact ⟨x, hx, y, hy, z, hz, by rw [if_pos hd]⟩

theorem voteLoop_frame (a : TdiArray) (labels : List ℤ)
    (cs : List (ℕ × ℕ × ℕ)) :
    ∀ (r0 r : ℕ → ℕ → ℕ → ℤ), voteLoop a labels cs r0 = .ok r →
      ∀ x y z, (x, y, z) ∉ cs → r x y z = r0 x y z := by
  induction cs with
  | nil =>
    intro r0 r h x y z _
    injection h with h
    rw [← h]
  | cons c cs ih =>
    intro r0 r h x y z hn
    rw [voteLoop] at h
    cases hv : voxelLabel a labels c.1 c.2.1 c.2.2 with
    | error e => rw [hv] at h; cases h
    | ok lab =>
      rw [hv] at h
      have hrest : (x, y, z) ∉ cs := fun hm => hn (List.mem_cons_of_mem _ hm)
      rw [ih _ _ h x y z hrest, update3]
      have hne : ¬(x = c.1 ∧ y = c.2.1 ∧ z = c.2.2) := by
        rintro ⟨rfl, rfl, rfl⟩
        exact hn (List.mem_cons_self _ _)
      rw [if_neg hne]

theorem voteLoop_mem (a : TdiArray) (labels : List ℤ)
    (cs : List (ℕ × ℕ × ℕ)) :
    ∀ (r0 r : ℕ → ℕ → ℕ → ℤ) (c : ℕ × ℕ × ℕ),
      voteLoop a labels cs r0 = .ok r → c ∈ cs →
      voxelLabel a labels c.1 c.2.1 c.2.2 = .ok (r c.1 c.2.1 c.2.2) := by
  induction cs with
  | nil => intro r0 r c _ hc; cases hc
  | cons d cs ih =>
    intro r0 r c h hc
    rw [voteLoop] at h
    cases hv : voxelLabel a labels d.1 d.2.1 d.2.2 with
    | error e => rw [hv] at h; cases h
    | ok lab =>
      rw [hv] at h
      by_cases hmem : c ∈ cs
      · exact ih _ _ c h hmem
      · have hcd : c = d := by
          cases hc with
          | head => rfl
          | tail _ hm => exact absurd hm hmem
        subst hcd
        have := voteLoop_frame a labels cs _ _ h c.1 c.2.1 c.2.2
          (by
            intro hm
            exact hmem (by
              have : ((c.1, c.2.1, c.2.2) : ℕ × ℕ × ℕ) = c := rfl
              rw [this] at hm
              exact hm))
        rw [this, update3, if_pos ⟨rfl, rfl, rfl⟩, hv]

theorem innerAssign_frame (s : ℕ) (vals : ℕ × ℕ × ℕ → ℤ)
    (cs : List (ℕ × ℕ × ℕ)) :
    ∀ (e : ℕ → ℕ → ℕ → ℤ) (a b c : ℕ),
      (a ≠ s ∨ ∀ d ∈ cs, ¬(d.2.1 = b ∧ d.2.2 = c)) →
      innerAssign s vals cs e a b c = e a b c := by
  induction cs with
  | nil => intro e a b c _; rfl
  | cons d cs ih =>
    intro e a b c hfree
    rw [innerAssign]
    have hfree' : a ≠ s ∨ ∀ d' ∈ cs, ¬(d'.2.1 = b ∧ d'.2.2 = c) := by
      cases hfree with
      | inl h => exact Or.inl h
      | inr h => exact Or.inr fun d' hd' => h d' (List.mem_cons_of_mem _ hd')
    rw [ih _ a b c hfree', update3]
    have hne : ¬(a = s ∧ b = d.2.1 ∧ c = d.2.2) := by
      rintro ⟨rfl, rfl, rfl⟩
      cases hfree with
      | inl h => exact h rfl
      | inr h => exact h d (List.mem_cons_self _ _) ⟨rfl, rfl⟩
    rw [if_neg hne]

theorem innerAssign_set (s : ℕ) (vals : ℕ × ℕ × ℕ → ℤ)
    (cs : List (ℕ × ℕ × ℕ)) :
    ∀ (e : ℕ → ℕ → ℕ → ℤ) (b c : ℕ) (v : ℤ),
      (∀ d ∈ cs, d.2.1 = b ∧ d.2.2 = c → vals d = v) →
      ((∃ d ∈ cs, d.2.1 = b ∧ d.2.2 = c) ∨ e s b c = v) →
      innerAssign s vals cs e s b c = v := by
  induction cs with
  | nil =>
    intro e b c v _ h0
    cases h0 with
    | inl h => obtain ⟨d, hd, _⟩ := h; cases hd
    | inr h => exact h
  | cons d cs ih =>
    intro e b c v hcons h0
    rw [innerAssign]
    apply ih _ b c v
      (fun d' hd' => hcons d' (List.mem_cons_of_mem _ hd'))
    by_cases hd : d.2.1 = b ∧ d.2.2 = c
    · by_cases hin : ∃ d' ∈ cs, d'.2.1 = b ∧ d'.2.2 = c
      · exact Or.inl hin
      · refine Or.inr ?_
        rw [update3, if_pos ⟨rfl, hd.1.symm, hd.2.symm⟩]
        exact hcons d (List.mem_cons_self _ _) hd
    · cases h0 with
      | inl h =>
        obtain ⟨d', hd', hyz⟩ := h
        cases hd' with
        | head => exact absurd hyz hd
        | tail _ hm => exact Or.inl ⟨d', hm, hyz⟩
      | inr h =>
        refine Or.inr ?_
        rw [update3]
        have hne : ¬(s = s ∧ b = d.2.1 ∧ c = d.2.2) := by
          rintro ⟨-, rfl, rfl⟩
          exact hd ⟨rfl, rfl⟩
        rw [if_neg hne]
        exact h

theorem slabAssign_frame (vals : ℕ × ℕ × ℕ → ℤ)
    (coords : List (ℕ × ℕ × ℕ)) (ss : List ℕ) :
    ∀ (e : ℕ → ℕ → ℕ → ℤ) (a b c : ℕ),
      (a ∉ ss ∨ ∀ d ∈ coords, ¬(d.2.1 = b ∧ d.2.2 = c)) →
      slabAssign vals coords ss e a b c = e a b c := by
  induction ss with
  | nil => intro e a b c _; rfl
  | cons s ss ih =>
    intro e a b c hfree
    rw [slabAssign]
    have hfree' : a ∉ ss ∨ ∀ d ∈ coords, ¬(d.2.1 = b ∧ d.2.2 = c) := by
      cases hfree with
      | inl h => exact Or.inl fun hm => h (List.mem_cons_of_mem _ hm)
      | inr h => exact Or.inr h
    rw [ih _ a b c hfree']
    apply innerAssign_frame
    cases hfree with
    | inl h => exact Or.inl fun has => h (has ▸ List.mem_cons_self _ _)
    | inr h => exact Or.inr h

theorem slabAssign_set (vals : ℕ × ℕ × ℕ → ℤ)
    (coords : List (ℕ × ℕ × ℕ)) (ss : List ℕ) :
    ∀ (e : ℕ → ℕ → ℕ → ℤ) (s : ℕ) (d : ℕ × ℕ × ℕ),
      s ∈ ss → d ∈ coords →
      (∀ d1 ∈ coords, ∀ d2 ∈ coords,
        d1.2.1 = d2.2.1 ∧ d1.2.2 = d2.2.2 → vals d1 = vals d2) →
      slabAssign vals coords ss e s d.2.1 d.2.2 = vals d := by
  induction ss with
  | nil => intro e s d hs _ _; cases hs
  | cons s0 ss ih =>
    intro e s d hs hd hcons
    rw [slabAssign]
    by_cases hmem : s ∈ ss
    · exact ih _ s d hmem hd hcons
    · have hss0 : s = s0 := by
        cases hs with
        | head => rfl
        | tail _ hm => exact absurd hm hmem
      subst hss0
      rw [slabAssign_frame vals coords ss _ s d.2.1 d.2.2 (Or.inl hmem)]
      apply innerAssign_set
      · intro d' hd' hyz
        exact hcons d' hd' d hd ⟨hyz.1.trans rfl, hyz.2.trans rfl⟩
      · exact Or.inl ⟨d, hd, rfl, rfl⟩

theorem argmaxIdx_lt_length : ∀ (l : List ℚ), l ≠ [] →
    argmaxIdx l < l.length
  | [], h => absurd rfl h
  | [_], _ => Nat.zero_lt_one
  | v :: w :: rest, _ => by
    rw [argmaxIdx]
    by_cases hle : vecMax (w :: rest) ≤ v
    · rw [if_pos hle]
      exact Nat.zero_lt_succ _
    · rw [if_neg hle]
      have := argmaxIdx_lt_length (w :: rest) (by simp)
      simpa [List.length_cons] using Nat.succ_lt_succ this

theorem getD_argmaxIdx : ∀ (l : List ℚ), l ≠ [] →
    l.getD (argmaxIdx l) 0 = vecMax l
  | [], h => absurd rfl h
  | [_], _ => rfl
  | v :: w :: rest, _ => by
    rw [argmaxIdx, vecMax]
    by_cases hle : vecMax (w :: rest) ≤ v
    · rw [if_pos hle, max_eq_left hle]
      rfl
    · rw [if_neg hle, max_eq_right (le_of_lt (lt_of_not_le hle))]
      exact getD_argmaxIdx (w :: rest) (by simp)

theorem argmaxIdx_first : ∀ (l : List ℚ) (j : ℕ), j < argmaxIdx l →
    l.getD j 0 < vecMax l
  | [], j, h => by rw [argmaxIdx] at h; cases h
  | [_], j, h => by rw [argmaxIdx] at h; cases h
  | v :: w :: rest, j, h => by
    rw [argmaxIdx] at h
    by_cases hle : vecMax (w :: rest) ≤ v
    · rw [if_pos hle] at h; cases h
    · rw [if_neg hle] at h
      rw [vecMax, max_eq_right (le_of_lt (lt_of_not_le hle))]
      match j with
      | 0 => exact lt_of_not_le hle
      | j' + 1 =>
        exact argmaxIdx_first (w :: rest) j' (Nat.lt_of_succ_lt_succ h)

theorem regularized_vote_success (mask : MaskArr) (tdiVols : List VolQ)
    (labels : List ℤ)
    (hok : (regularized_vote mask tdiVols labels).err = none) :
    ∃ t res cx, stackTdis tdiVols = .ok t ∧
      (t.X = mask.X ∧ t.Y = mask.Y ∧ t.Z = mask.Z) ∧
      voteLoop (maskTdi mask t) labels (nonzeroCoords mask)
        (fun _ _ _ => 0) = .ok res ∧
      centralX (nonzeroCoords mask) = .ok cx ∧
      regularized_vote mask tdiVols labels =
        ⟨[.resultFile, .extendedFile], some res,
         some (slabAssign (fun d => res d.1 d.2.1 d.2.2) (nonzeroCoords mask)
           (sliceIndices (cx - (EXTENSION : ℤ)) (cx + (EXTENSION : ℤ) + 1)
             mask.X) res),
         none⟩ := by
  cases hstack : stackTdis tdiVols with
  | error e => simp [regularized_vote, hstack] at hok
  | ok t =>
    by_cases hdims : t.X = mask.X ∧ t.Y = mask.Y ∧ t.Z = mask.Z
    · cases hloop : voteLoop (maskTdi mask t) labels (nonzeroCoords mask)
          (fun _ _ _ => 0) with
      | error e =>
        simp [regularized_vote, hstack, if_pos hdims, hloop] at hok
      | ok res =>
        cases hcx : centralX (nonzeroCoords mask) with
        | error e =>
          simp [regularized_vote, hstack, if_pos hdims, hloop, hcx] at hok
        | ok cx =>
          refine ⟨t, res, cx, rfl, hdims, hloop, rfl, ?_⟩
          simp only [regularized_vote, hstack, if_pos hdims, hloop, hcx]
    · simp [regularized_vote, hstack, if_neg hdims] at hok

theorem regularized_vote_result_some (mask : MaskArr) (tdiVols : List VolQ)
    (labels : List ℤ) (r : ℕ → ℕ → ℕ → ℤ)
    (hr : (regularized_vote mask tdiVols labels).result = some r) :
    ∃ t, stackTdis tdiVols = .ok t ∧
      voteLoop (maskTdi mask t) labels (nonzeroCoords mask)
        (fun _ _ _ => 0) = .ok r := by
  cases hstack : stackTdis tdiVols with
  | error e => simp [regularized_vote, hstack] at hr
  | ok t =>
    by_cases hdims : t.X = mask.X ∧ t.Y = mask.Y ∧ t.Z = mask.Z
    · cases hloop : voteLoop (maskTdi mask t) labels (nonzeroCoords mask)
          (fun _ _ _ => 0) with
      | error e =>
        simp [regularized_vote, hstack, if_pos hdims, hloop] at hr
      | ok res =>
        cases hcx : centralX (nonzeroCoords mask) with
        | error e =>
          simp only [regularized_vote, hstack, if_pos hdims, hloop, hcx] at hr
          simp only [Option.some.injEq] at hr
          exact ⟨t, rfl, by rw [hloop, hr]⟩
        | ok cx =>
          simp only [regularized_vote, hstack, if_pos hdims, hloop, hcx] at hr
          simp only [Option.some.injEq] at hr
          exact ⟨t, rfl, by rw [hloop, hr]⟩
    · simp [regularized_vote, hstack, if_neg hdims] at hr


/-- C1: the claim says every neighbour access of `regularize_tdis_at` stays
within the grid extents, even at the maximal faces.  The code violates this:
its loop bounds clamp with `shape[0] + 1` on every axis, so at the maximal
face voxel `(2,2,2)` of a 3×3×3 grid the loop reads index `3`, out of bounds,
and the whole run aborts before writing any output.  This theorem exhibits
that failing evaluation. -/
theorem claim_C1_oob_neighbor_access :
    ((3 : ℕ) ∈ buggyRange 2 3 ∧ ¬(3 < tdiZ3.X)) ∧
    regularize_tdis_at tdiZ3 2 2 2 = .error .indexError ∧
    (2, 2, 2) ∈ nonzeroCoords maskCorner ∧
    (regularized_vote maskCorner [volZ3, volZ3] [1, 2]).err
      = some .indexError ∧
    (regularized_vote maskCorner [volZ3, volZ3] [1, 2]).writes = [] := by
  with_unfolding_all decide

/-- C2: the claim says a no-vote voxel receives the value configured by
`--no-vote-label`.  The code violates this for any non-default value: `main`
never passes `args.no_vote_label` to `regularized_vote`, which uses the
module constant `NO_VOTE = 2`.  Here the command line sets `--no-vote-label`
to `9`, the origin voxel is active with an all-zero regularized vector, and
the written label is `2`, not `9`. -/
theorem claim_C2_no_vote_label_ignored :
    cmdNoVote9.no_vote_label = 9 ∧
    (main envZ2 cmdNoVote9).1.err = none ∧
    (stackTdis [volZ2, volZ2]).toOption.map
      (fun t => regularize_tdis_at (maskTdi maskOrigin t) 0 0 0)
      = some (.ok [0, 0]) ∧
    (0, 0, 0) ∈ nonzeroCoords maskOrigin ∧
    resultAt (main envZ2 cmdNoVote9).1 0 0 0 = some NO_VOTE ∧
    resultAt (main envZ2 cmdNoVote9).1 0 0 0
      ≠ some cmdNoVote9.no_vote_label := by
  with_unfolding_all decide

/-- C4: the claim states the weighting law over the in-bounds 26-connected
neighbourhood.  The code violates it because its neighbour ranges clamp the
y and z axes with `shape[0] + 1` instead of the axis's own extent: on a
2×5×2 grid, the in-bounds neighbour `(1,4,1)` of `(0,3,0)` carries the only
vote, yet the code's enumeration omits it, returning the zero centre vector
where the spec formula yields `[0, 1/2]`. -/
theorem claim_C4_neighbor_enumeration_bug :
    (1, 4, 1) ∈ specNbhd tdiTall 0 3 0 ∧
    vecMax (tdiTall.data 1 4 1) ≠ 0 ∧
    (1, 4, 1) ∉ nbhd tdiTall 0 3 0 ∧
    regularize_tdis_at tdiTall 0 3 0 = .ok [0, 0] ∧
    regularizeSpec tdiTall 0 3 0 = [0, 1 / 2] ∧
    regularize_tdis_at tdiTall 0 3 0
      ≠ .ok (regularizeSpec tdiTall 0 3 0) := by
  with_unfolding_all decide

/-- C6: voxels outside the mask are excluded from the voting loop's
coordinate list, their channel vector is zeroed before any regularization,
and the result volume keeps the value `0` there. -/
theorem claim_C6_outside_mask_untouched (mask : MaskArr)
    (tdiVols : List VolQ) (labels : List ℤ) (x y z : ℕ)
    (h0 : mask.data x y z = 0) :
    (x, y, z) ∉ nonzeroCoords mask ∧
    (∀ t : TdiArray, (maskTdi mask t).data x y z = List.replicate t.K 0) ∧
    (∀ r, (regularized_vote mask tdiVols labels).result = some r →
      r x y z = 0) := by
  have hnm : (x, y, z) ∉ nonzeroCoords mask := by
    rw [mem_nonzeroCoords]
    rintro ⟨-, -, -, hd⟩
    exact hd h0
  refine ⟨hnm, ?_, ?_⟩
  · intro t
    simp [maskTdi, h0]
  · intro r hr
    obtain ⟨t, -, hloop⟩ :=
      regularized_vote_result_some mask tdiVols labels r hr
    exact voteLoop_frame _ _ _ _ _ hloop x y z hnm

/-- Witness for C6 at the voxel `(1,1,1)`, outside the single-voxel mask. -/
theorem claim_C6_witness :
    maskOrigin.data 1 1 1 = 0 ∧
    ((1, 1, 1) ∉ nonzeroCoords maskOrigin ∧
     (∀ t : TdiArray,
        (maskTdi maskOrigin t).data 1 1 1 = List.replicate t.K 0) ∧
     (∀ r, (regularized_vote maskOrigin [volZ2, volZ2] [1, 2]).result
        = some r → r 1 1 1 = 0)) :=
  ⟨rfl,
   claim_C6_outside_mask_untouched maskOrigin [volZ2, volZ2] [1, 2] 1 1 1 rfl⟩

/-- C7 counterexample: on an empty mask the program does fail explicitly
(the median of the empty coordinate list is undefined), but the claim's
conclusion that no output volume is written is false — the primary result
volume has already been written when the failure occurs. -/
theorem claim_C7_counterexample :
    nonzeroCoords maskNone = [] ∧
    runEmpty.err = some .valueError ∧
    runEmpty.writes = [.resultFile] ∧
    runEmpty.writes ≠ [] := by
  with_unfolding_all decide

/-- C7 amended: on an empty mask the run fails explicitly with an error (the
undefined median), and the extended visualization volume is not written —
but the primary result volume has already been written before the failure. -/
theorem claim_C7_amended (mask : MaskArr) (tdiVols : List VolQ)
    (labels : List ℤ) (t : TdiArray)
    (hempty : nonzeroCoords mask = [])
    (hstack : stackTdis tdiVols = .ok t)
    (hdims : t.X = mask.X ∧ t.Y = mask.Y ∧ t.Z = mask.Z) :
    (regularized_vote mask tdiVols labels).err = some .valueError ∧
    (regularized_vote mask tdiVols labels).writes = [.resultFile] ∧
    (regularized_vote mask tdiVols labels).extended = none := by
  simp only [regularized_vote, hstack, if_pos hdims, hempty]
  exact ⟨rfl, rfl, rfl⟩

/-- Witness for C7 amended on the concrete empty 2×2×2 mask. -/
theorem claim_C7_amended_witness :
    nonzeroCoords maskNone = [] ∧
    ((regularized_vote maskNone [volZ2, volZ2] [1, 2]).err
        = some .valueError ∧
     (regularized_vote maskNone [volZ2, volZ2] [1, 2]).writes
        = [.resultFile] ∧
     (regularized_vote maskNone [volZ2, volZ2] [1, 2]).extended = none) :=
  ⟨by decide,
   claim_C7_amended maskNone [volZ2, volZ2] [1, 2] tdiStackZ2 (by decide)
     rfl ⟨rfl, rfl, rfl⟩⟩

/-- C8: with fewer than two track-density paths, `parse_command_line`
reports a usage error, `main` exits with status 2 (non-zero) and no output
file is written. -/
theorem claim_C8_too_few_tdi (env : Env) (c : CmdLine)
    (h : c.tdi.length < 2) :
    parse_command_line c = .error .usageError ∧
    (main env c).1.writes = [] ∧
    (main env c).1.err = some .usageError ∧
    (main env c).2 = 2 ∧ (main env c).2 ≠ 0 := by
  have hp : parse_command_line c = .error .usageError := by
    rw [parse_command_line, if_pos h]
  refine ⟨hp, ?_, ?_, ?_, ?_⟩ <;> simp [main, hp]

/-- Witness for C8 with a single-path command line. -/
theorem claim_C8_witness :
    cmdOneTdi.tdi.length < 2 ∧
    (parse_command_line cmdOneTdi = .error .usageError ∧
     (main envZ2 cmdOneTdi).1.writes = [] ∧
     (main envZ2 cmdOneTdi).1.err = some .usageError ∧
     (main envZ2 cmdOneTdi).2 = 2 ∧ (main envZ2 cmdOneTdi).2 ≠ 0) :=
  ⟨by decide, claim_C8_too_few_tdi envZ2 cmdOneTdi (by decide)⟩

/-- C5: at an active voxel whose regularized vector has a non-zero maximum,
the label written by the run is `labels[i]` where `i` is the first index
achieving the maximum (strictly greater than every earlier component). -/
theorem claim_C5_first_max_wins (mask : MaskArr) (tdiVols : List VolQ)
    (labels : List ℤ) (t : TdiArray) (x y z : ℕ) (v : List ℚ) (lab : ℤ)
    (hstack : stackTdis tdiVols = .ok t)
    (hmem : (x, y, z) ∈ nonzeroCoords mask)
    (hreg : regularize_tdis_at (maskTdi mask t) x y z = .ok v)
    (hmax : vecMax v ≠ 0)
    (hlab : resultAt (regularized_vote mask tdiVols labels) x y z
      = some lab) :
    argmaxIdx v < v.length ∧
    v.getD (argmaxIdx v) 0 = vecMax v ∧
    (∀ j < argmaxIdx v, v.getD j 0 < vecMax v) ∧
    labels.get? (argmaxIdx v) = some lab := by
  rw [resultAt] at hlab
  obtain ⟨r, hr, hrlab⟩ := Option.map_eq_some'.mp hlab
  obtain ⟨t', hstack', hloop⟩ :=
    regularized_vote_result_some mask tdiVols labels r hr
  rw [hstack] at hstack'
  injection hstack' with ht
  subst ht
  have hvox := voteLoop_mem _ _ _ _ _ (x, y, z) hloop hmem
  have hne : v ≠ [] := fun h => hmax (by rw [h]; rfl)
  have hemp : v.isEmpty = false := by
    cases v with
    | nil => exact absurd rfl hne
    | cons a l => rfl
  have hgd : v.getD (argmaxIdx v) 0 = vecMax v := getD_argmaxIdx v hne
  simp only [voxelLabel, hreg, hemp, Bool.false_eq_true, if_false] at hvox
  rw [if_neg (by rw [hgd]; exact hmax)] at hvox
  cases hget : labels.get? (argmaxIdx v) with
  | none => rw [hget] at hvox; cases hvox
  | some lab' =>
    rw [hget] at hvox
    injection hvox with hvox
    exact ⟨argmaxIdx_lt_length v hne, hgd,
           fun j hj => argmaxIdx_first v j hj,
           by rw [hvox, hrlab]⟩

/-- Witness for C5: the regularized vector `[5, 3, 0]` with labels
`[80, 70, 60]` assigns `80`, the label of the first maximal channel. -/
theorem claim_C5_witness :
    (0, 0, 0) ∈ nonzeroCoords maskOrigin ∧
    regularize_tdis_at (maskTdi maskOrigin tdiStack530) 0 0 0
      = .ok [5, 3, 0] ∧
    vecMax [5, 3, 0] ≠ 0 ∧
    resultAt (regularized_vote maskOrigin [volFive, volThree, volZ2]
      [80, 70, 60]) 0 0 0 = some 80 ∧
    (argmaxIdx [5, 3, 0] < ([5, 3, 0] : List ℚ).length ∧
     ([5, 3, 0] : List ℚ).getD (argmaxIdx [5, 3, 0]) 0
        = vecMax [5, 3, 0] ∧
     (∀ j < argmaxIdx [5, 3, 0], ([5, 3, 0] : List ℚ).getD j 0
        < vecMax [5, 3, 0]) ∧
     ([80, 70, 60] : List ℤ).get? (argmaxIdx [5, 3, 0]) = some 80) :=
  ⟨by decide, by with_unfolding_all decide, by decide,
   by with_unfolding_all decide,
   claim_C5_first_max_wins maskOrigin [volFive, volThree, volZ2]
     [80, 70, 60] tdiStack530 0 0 0 [5, 3, 0] 80 rfl (by decide)
     (by with_unfolding_all decide) (by decide)
     (by with_unfolding_all decide)⟩

/-- C10: with `--output-labels` omitted and `K ≥ 2` inputs, the defaulted
label list has `2 = NO_VOTE` at index 1, the parse succeeds (no collision
check), and a no-vote voxel is assigned exactly `NO_VOTE`, the label of the
second channel. -/
theorem claim_C10_default_sentinel_collision (c : CmdLine) (pa : ParsedArgs)
    (h1 : c.output_labels = none) (h2 : 2 ≤ c.tdi.length)
    (hp : parse_command_line c = .ok pa) :
    pa.output_labels.get? 1 = some NO_VOTE ∧
    ∀ (a : TdiArray) (x y z : ℕ) (v : List ℚ),
      regularize_tdis_at a x y z = .ok v → v ≠ [] → vecMax v = 0 →
      voxelLabel a pa.output_labels x y z = .ok NO_VOTE := by
  constructor
  · have hlab : pa.output_labels
        = (List.range c.tdi.length).map (fun i : ℕ => (i : ℤ) + 1) := by
      rw [parse_command_line, if_neg (not_lt.mpr h2), h1] at hp
      injection hp with hp
      rw [← hp]
    rw [hlab, List.get?_map,
        List.get?_range (by omega : 1 < c.tdi.length)]
    rfl
  · intro a x y z v hreg hne hzero
    have hemp : v.isEmpty = false := by
      cases v with
      | nil => exact absurd rfl hne
      | cons a l => rfl
    simp only [voxelLabel, hreg, hemp, Bool.false_eq_true, if_false]
    rw [getD_argmaxIdx v hne, if_pos hzero]

/-- Witness for C10 on the two-input default-label command line. -/
theorem claim_C10_witness :
    cmdNoVote9.output_labels = none ∧ 2 ≤ cmdNoVote9.tdi.length ∧
    parse_command_line cmdNoVote9 = .ok paNine ∧
    (paNine.output_labels.get? 1 = some NO_VOTE ∧
     ∀ (a : TdiArray) (x y z : ℕ) (v : List ℚ),
       regularize_tdis_at a x y z = .ok v → v ≠ [] → vecMax v = 0 →
       voxelLabel a paNine.output_labels x y z = .ok NO_VOTE) :=
  ⟨rfl, by decide, by decide,
   claim_C10_default_sentinel_collision cmdNoVote9 paNine rfl (by decide)
     (by decide)⟩

/-- C3 counterexample: the claim computes the central slice by rounding the
median.  On a mask with x coordinates `{3, 4}` the median is `3.5`, whose
rounding is `4`, so the claim requires slice `7 ∈ [4−3, 4+3]` to carry the
mask voxels' label `2`; the code truncates the median to `3` and its slab
stops at slice `6`, leaving `extended[7,0,0] = 0 ≠ 2`. -/
theorem claim_C3_counterexample :
    nonzeroCoords maskTwo = [(3, 0, 0), (4, 0, 0)] ∧
    npMedian ((nonzeroCoords maskTwo).map (fun c => c.1)) = .ok (7 / 2) ∧
    round ((7 : ℚ) / 2) = 4 ∧
    ((4 : ℤ) - (EXTENSION : ℤ) ≤ 7 ∧ (7 : ℤ) ≤ 4 + (EXTENSION : ℤ)) ∧
    (3, 0, 0) ∈ nonzeroCoords maskTwo ∧
    resultAt runTwo 3 0 0 = some 2 ∧
    extendedAt runTwo 7 0 0 = some 0 ∧
    extendedAt runTwo 7 0 0 ≠ resultAt runTwo 3 0 0 := by
  with_unfolding_all decide

/-- C3 amended: with `central` the *truncated* median (`int(median)`) and
the slab the Python-normalized slice `[central−3, central+4)` clipped to the
grid, every slab slice carries each mask voxel's label at its own `(y, z)`
position (assuming mask voxels sharing a `(y, z)` column carry equal
labels, as the fancy assignment otherwise keeps only the last write). -/
theorem claim_C3_amended (mask : MaskArr) (tdiVols : List VolQ)
    (labels : List ℤ) (cx : ℤ) (s : ℕ) (d : ℕ × ℕ × ℕ) (v : ℤ)
    (hok : (regularized_vote mask tdiVols labels).err = none)
    (hcx : centralX (nonzeroCoords mask) = .ok cx)
    (hcons : ∀ d1 ∈ nonzeroCoords mask, ∀ d2 ∈ nonzeroCoords mask,
      d1.2.1 = d2.2.1 ∧ d1.2.2 = d2.2.2 →
      resultAt (regularized_vote mask tdiVols labels) d1.1 d1.2.1 d1.2.2 =
      resultAt (regularized_vote mask tdiVols labels) d2.1 d2.2.1 d2.2.2)
    (hs : s ∈ sliceIndices (cx - (EXTENSION : ℤ))
      (cx + (EXTENSION : ℤ) + 1) mask.X)
    (hd : d ∈ nonzeroCoords mask)
    (hv : resultAt (regularized_vote mask tdiVols labels) d.1 d.2.1 d.2.2
      = some v) :
    extendedAt (regularized_vote mask tdiVols labels) s d.2.1 d.2.2
      = some v := by
  obtain ⟨t, res, cx', hstack, hdims, hloop, hcx', heq⟩ :=
    regularized_vote_success mask tdiVols labels hok
  rw [hcx'] at hcx
  injection hcx with hcxeq
  subst hcxeq
  rw [heq] at hv hcons ⊢
  simp only [extendedAt, resultAt, Option.map_some'] at hv hcons ⊢
  injection hv with hv
  rw [← hv]
  refine congrArg some ?_
  apply slabAssign_set _ _ _ _ _ _ hs hd
  intro d1 h1 d2 h2 hyz
  have := hcons d1 h1 d2 h2 hyz
  injection this

/-- Witness for C3 amended on the `maskTwo` run, slab slice `0`. -/
theorem claim_C3_amended_witness :
    (regularized_vote maskTwo [volZ8, volZ8] [1, 2]).err = none ∧
    centralX (nonzeroCoords maskTwo) = .ok 3 ∧
    (0 : ℕ) ∈ sliceIndices ((3 : ℤ) - (EXTENSION : ℤ))
      ((3 : ℤ) + (EXTENSION : ℤ) + 1) maskTwo.X ∧
    (3, 0, 0) ∈ nonzeroCoords maskTwo ∧
    resultAt (regularized_vote maskTwo [volZ8, volZ8] [1, 2]) 3 0 0
      = some 2 ∧
    extendedAt (regularized_vote maskTwo [volZ8, volZ8] [1, 2]) 0 0 0
      = some 2 :=
  ⟨by with_unfolding_all decide, by with_unfolding_all decide, by decide,
   by decide, by with_unfolding_all decide,
   claim_C3_amended maskTwo [volZ8, volZ8] [1, 2] 3 0 (3, 0, 0) 2
     (by with_unfolding_all decide) (by with_unfolding_all decide)
     (by with_unfolding_all decide) (by decide) (by decide)
     (by with_unfolding_all decide)⟩

/-- C9: at every voxel the slab assignment does not touch — its x outside
the written slice range, or its `(y, z)` not that of any mask voxel — the
extended volume equals the result volume it was copied from. -/
theorem claim_C9_extended_is_copy_outside_slab (mask : MaskArr)
    (tdiVols : List VolQ) (labels : List ℤ) (cx : ℤ) (x y z : ℕ)
    (hok : (regularized_vote mask tdiVols labels).err = none)
    (hcx : centralX (nonzeroCoords mask) = .ok cx)
    (hout : x ∉ sliceIndices (cx - (EXTENSION : ℤ))
        (cx + (EXTENSION : ℤ) + 1) mask.X ∨
      ∀ d ∈ nonzeroCoords mask, ¬(d.2.1 = y ∧ d.2.2 = z)) :
    extendedAt (regularized_vote mask tdiVols labels) x y z
      = resultAt (regularized_vote mask tdiVols labels) x y z := by
  obtain ⟨t, res, cx', hstack, hdims, hloop, hcx', heq⟩ :=
    regularized_vote_success mask tdiVols labels hok
  rw [hcx'] at hcx
  injection hcx with hcxeq
  subst hcxeq
  rw [heq]
  simp only [extendedAt, resultAt, Option.map_some']
  exact congrArg some (slabAssign_frame _ _ _ _ x y z hout)

/-- Witness for C9: slice `7` lies outside the slab of the `maskTwo` run,
and the extended volume equals the result volume there. -/
theorem claim_C9_witness :
    (regularized_vote maskTwo [volZ8, volZ8] [1, 2]).err = none ∧
    centralX (nonzeroCoords maskTwo) = .ok 3 ∧
    (7 : ℕ) ∉ sliceIndices ((3 : ℤ) - (EXTENSION : ℤ))
      ((3 : ℤ) + (EXTENSION : ℤ) + 1) maskTwo.X ∧
    extendedAt (regularized_vote maskTwo [volZ8, volZ8] [1, 2]) 7 0 0
      = resultAt (regularized_vote maskTwo [volZ8, volZ8] [1, 2]) 7 0 0 :=
  ⟨by with_unfolding_all decide, by with_unfolding_all decide, by decide,
   claim_C9_extended_is_copy_outside_slab maskTwo [volZ8, volZ8] [1, 2]
     3 7 0 0 (by with_unfolding_all decide) (by with_unfolding_all decide)
     (Or.inl (by decide))⟩

end RegVote
